import Mathlib

/-!
Verification of the movers-recommendation service core logic.

The definitions below are a shallow embedding of the most complete variant
of the Go program (the variant whose helpers are `sortMoversByRatingAndId`,
`checkMoverExists`, `checkMoverTelNumber` and whose handlers are `getMovers`,
`addMover`, `deleteMover`, `recommendMover`).

Modelling conventions:
* The Go `float64` rating is modelled as `ℚ`; `int` is modelled as `Int`.
* The global slice `movers` becomes an explicit state value of type
  `List Mover` threaded through every handler; a handler returns the new
  state together with its response.
* `sort.Slice` with the comparator of `sortMoversByRatingAndId` is modelled
  as a deterministic sort (`List.mergeSort`) with respect to the non-strict
  relation "the comparator does not place b strictly before a", which is the
  sortedness guarantee Go's sort gives for this comparator.
* HTTP responses are modelled as `Except ErrResp payload`, where an
  `ErrResp` carries the status code and the message of the Go error reply.
-/

namespace MoversAPI

/-- The mover record, mirroring the Go struct `mover`
(`ID int`, `Name string`, `Rating float64`, `TelephoneNumber string`,
`JobsAmount int`). -/
structure Mover where
  ID : Int
  Name : String
  Rating : ℚ
  TelephoneNumber : String
  JobsAmount : Int
deriving DecidableEq

instance : Inhabited Mover := ⟨⟨0, "", 0, "", 0⟩⟩

/-- An error reply: HTTP status code together with the message string the
Go handler puts in the JSON body. -/
structure ErrResp where
  status : Nat
  msg : String
deriving DecidableEq

/-- The comparator passed to `sort.Slice` in `sortMoversByRatingAndId`:
`less i j` holds when the ratings are equal and `ID i < ID j`, otherwise
when `Rating i > Rating j`. -/
def moverLess (a b : Mover) : Bool :=
  if a.Rating = b.Rating then decide (a.ID < b.ID) else decide (b.Rating < a.Rating)

/-- The non-strict order induced by `moverLess`: `a` may be placed before
`b` exactly when the comparator does not demand `b` before `a`. An output
of `sort.Slice` is pairwise ordered by this relation. -/
def moverSortLe (a b : Mover) : Bool :=
  !moverLess b a

/-- Go `sortMoversByRatingAndId`: copies the slice into `moversCopy` and
sorts the copy with the `moverLess` comparator, returning the copy. The
copy-then-sort is modelled by a pure sort of the list. -/
def sortMoversByRatingAndId (movers : List Mover) : List Mover :=
  movers.mergeSort moverSortLe

/-- Go `findMoverIndexById`: linear scan returning the first index whose
record has the given `ID`, or the error "mover not found". -/
def findMoverIndexById (id : Int) : List Mover → Except String Nat
  | [] => .error "mover not found"
  | m :: rest =>
    if m.ID = id then .ok 0
    else (findMoverIndexById id rest).map (· + 1)

/-- Go `deleteElement`: `slices.Delete(slice, index, index+1)`, removal of
the element at `index`. -/
def deleteElement (slice : List Mover) (index : Nat) : List Mover :=
  slice.eraseIdx index

/-- Go `checkMoverExists`: scans the store for a record with the same `ID`
or the same `Name` as the candidate. -/
def checkMoverExists (s : List Mover) (newMover : Mover) : Bool :=
  s.any (fun existingMover =>
    decide (existingMover.ID = newMover.ID) || decide (existingMover.Name = newMover.Name))

/-- Go `checkMoverTelNumber`: scans the store for a record with the same
`TelephoneNumber` as the candidate. -/
def checkMoverTelNumber (s : List Mover) (newMover : Mover) : Bool :=
  s.any (fun existingMover =>
    decide (existingMover.TelephoneNumber = newMover.TelephoneNumber))

/-- The guarded rating-update block of Go `recommendMover` (the rating
aggregator `applyReview` of the design): if the submitted rating is within
`[0, 5]`, set `Rating` to `(Rating * JobsAmount + v) / (JobsAmount + 1)` and
increment `JobsAmount`; otherwise reply 417 and leave the record alone. -/
def applyReview (m : Mover) (v : ℚ) : Except ErrResp Mover :=
  if 0 ≤ v ∧ v ≤ 5 then
    let totalJobs := m.JobsAmount
    .ok { m with
      Rating := (m.Rating * (totalJobs : ℚ) + v) / ((totalJobs : ℚ) + 1),
      JobsAmount := m.JobsAmount + 1 }
  else
    .error ⟨417, "Provided rate should be in range between 0 and 5"⟩

/-- Go `getMovers`: with an empty store replies 404 "movers list is empty";
otherwise replies 200 with the sorted copy. The store itself is never
reassigned by this handler, hence the returned state is the input state. -/
def getMovers (s : List Mover) : List Mover × Except ErrResp (List Mover) :=
  if s.length = 0 then
    (s, .error ⟨404, "movers list is empty"⟩)
  else
    (s, .ok (sortMoversByRatingAndId s))

/-- Go `addMover`: rejects a candidate matching an existing record's `ID` or
`Name` ("Mover already exists"), then one matching an existing
`TelephoneNumber` ("Tel. number is occupied"); otherwise appends the
candidate to the store. Both rejections reply with status 404 in the code. -/
def addMover (newMover : Mover) (s : List Mover) : List Mover × Except ErrResp Mover :=
  if checkMoverExists s newMover then
    (s, .error ⟨404, "Mover already exists"⟩)
  else if checkMoverTelNumber s newMover then
    (s, .error ⟨404, "Tel. number is occupied"⟩)
  else
    (s ++ [newMover], .ok newMover)

/-- Go `deleteMover` (after the id has been parsed): looks up the first
index with the given id and removes that element, or replies 404. -/
def deleteMover (id : Int) (s : List Mover) : List Mover × Except ErrResp String :=
  match findMoverIndexById id s with
  | .error _ => (s, .error ⟨404, "Mover not found"⟩)
  | .ok moverIndex => (deleteElement s moverIndex, .ok "Mover deleted successfully")

/-- Go `recommendMover` (after the id has been parsed): `getMoverById`
yields a pointer to the first record with the given id; the in-place update
through that pointer is modelled by writing the reviewed record back at the
first matching index. A failed review leaves the store as it was. -/
def recommendMover (id : Int) (v : ℚ) (s : List Mover) : List Mover × Except ErrResp Mover :=
  match findMoverIndexById id s with
  | .error _ => (s, .error ⟨404, "Mover not found"⟩)
  | .ok i =>
    match applyReview (s.getD i default) v with
    | .ok m' => (s.set i m', .ok m')
    | .error e => (s, .error e)

/-- An in-range review succeeds and produces exactly the running-mean
update of the source: shared helper for the claims below. -/
theorem applyReview_ok (m : Mover) (v : ℚ) (h0 : 0 ≤ v) (h5 : v ≤ 5) :
    applyReview m v = .ok { m with
      Rating := (m.Rating * (m.JobsAmount : ℚ) + v) / ((m.JobsAmount : ℚ) + 1),
      JobsAmount := m.JobsAmount + 1 } := by
  unfold applyReview
  rw [if_pos ⟨h0, h5⟩]

/-- Claim C1: a successful review sets the rating to
`(rating * jobsDone + v) / (jobsDone + 1)` in exactly that shape and
increments `jobsDone`; concretely, from `rating = 4, jobsDone = 0` a review
of `5` gives `rating = 5, jobsDone = 1`, and a further review of `3` gives
`rating = 4, jobsDone = 2`. -/
theorem applyReview_running_mean :
    (∀ (m : Mover) (v : ℚ), 0 ≤ v → v ≤ 5 →
      applyReview m v = .ok { m with
        Rating := (m.Rating * (m.JobsAmount : ℚ) + v) / ((m.JobsAmount : ℚ) + 1),
        JobsAmount := m.JobsAmount + 1 }) ∧
    applyReview ⟨1, "A", 4, "p", 0⟩ 5 = .ok ⟨1, "A", 5, "p", 1⟩ ∧
    applyReview ⟨1, "A", 5, "p", 1⟩ 3 = .ok ⟨1, "A", 4, "p", 2⟩ := by
  exact ⟨fun m v h0 h5 => applyReview_ok m v h0 h5,
    by norm_num [applyReview], by norm_num [applyReview]⟩

/-- Witness for C1 at a concrete record and in-range review value. -/
theorem applyReview_running_mean_witness :
    applyReview ⟨2, "B", 3, "q", 4⟩ 1 =
      .ok { ID := 2, Name := "B", Rating := (3 * ((4 : Int) : ℚ) + 1) / (((4 : Int) : ℚ) + 1),
            TelephoneNumber := "q", JobsAmount := 4 + 1 } :=
  applyReview_running_mean.1 ⟨2, "B", 3, "q", 4⟩ 1 (by norm_num) (by norm_num)

/-- Claim C2: a review value outside `[0, 5]` makes the review fail with
status 417 and the range-error message, and the store (hence the record) is
left exactly as it was. -/
theorem applyReview_range_reject (m : Mover) (v : ℚ) (h : v < 0 ∨ 5 < v) :
    applyReview m v = .error ⟨417, "Provided rate should be in range between 0 and 5"⟩ ∧
    ∀ (id : Int) (s : List Mover), (recommendMover id v s).fst = s := by
  have hneg : ¬(0 ≤ v ∧ v ≤ 5) := by
    rcases h with h | h
    · exact fun hc => absurd (lt_of_lt_of_le h hc.1) (lt_irrefl v)
    · exact fun hc => absurd (lt_of_le_of_lt hc.2 h) (lt_irrefl v)
  have herr : applyReview m v =
      .error ⟨417, "Provided rate should be in range between 0 and 5"⟩ := by
    unfold applyReview
    rw [if_neg hneg]
  refine ⟨herr, ?_⟩
  intro id s
  unfold recommendMover
  cases hfind : findMoverIndexById id s with
  | error e => rfl
  | ok i =>
    have herr' : applyReview (s.getD i default) v =
        .error ⟨417, "Provided rate should be in range between 0 and 5"⟩ := by
      unfold applyReview
      rw [if_neg hneg]
    change ((match applyReview (s.getD i default) v with
      | Except.ok m' => (s.set i m', Except.ok m')
      | Except.error e => (s, Except.error e)).1) = s
    rw [herr']

/-- Witness for C2 at the spec's example values `5.1` and `-0.1`. -/
theorem applyReview_range_reject_witness :
    applyReview ⟨1, "A", 4, "p", 0⟩ (51 / 10) =
      .error ⟨417, "Provided rate should be in range between 0 and 5"⟩ ∧
    applyReview ⟨1, "A", 4, "p", 0⟩ (-1 / 10) =
      .error ⟨417, "Provided rate should be in range between 0 and 5"⟩ :=
  ⟨(applyReview_range_reject ⟨1, "A", 4, "p", 0⟩ (51 / 10) (Or.inr (by norm_num))).1,
   (applyReview_range_reject ⟨1, "A", 4, "p", 0⟩ (-1 / 10) (Or.inl (by norm_num))).1⟩

/-- Characterisation of the non-strict sort order: `a` may come before `b`
iff `a` has the strictly higher rating, or the ratings are equal and
`a.ID ≤ b.ID`. -/
theorem moverSortLe_iff (a b : Mover) :
    moverSortLe a b = true ↔
      b.Rating < a.Rating ∨ (a.Rating = b.Rating ∧ a.ID ≤ b.ID) := by
  unfold moverSortLe moverLess
  by_cases h : b.Rating = a.Rating
  · simp [h]
  · have h' : ¬ a.Rating = b.Rating := fun heq => h heq.symm
    simp only [if_neg h, Bool.not_eq_true', decide_eq_false_iff_not, not_lt]
    constructor
    · intro hle
      exact Or.inl (lt_of_le_of_ne hle h)
    · rintro (hlt | ⟨heq, _⟩)
      · exact le_of_lt hlt
      · exact absurd heq h'

theorem moverSortLe_trans (a b c : Mover) :
    moverSortLe a b → moverSortLe b c → moverSortLe a c := by
  intro h1 h2
  rw [moverSortLe_iff] at h1 h2 ⊢
  rcases h1 with h1 | ⟨h1e, h1i⟩ <;> rcases h2 with h2 | ⟨h2e, h2i⟩
  · exact Or.inl (lt_trans h2 h1)
  · exact Or.inl (h2e ▸ h1)
  · exact Or.inl (h1e ▸ h2)
  · exact Or.inr ⟨h1e.trans h2e, le_trans h1i h2i⟩

theorem moverSortLe_total (a b : Mover) :
    moverSortLe a b || moverSortLe b a := by
  rw [Bool.or_eq_true, moverSortLe_iff, moverSortLe_iff]
  rcases lt_trichotomy a.Rating b.Rating with h | h | h
  · exact Or.inr (Or.inl h)
  · rcases le_total a.ID b.ID with hid | hid
    · exact Or.inl (Or.inr ⟨h, hid⟩)
    · exact Or.inr (Or.inr ⟨h.symm, hid⟩)
  · exact Or.inl (Or.inl h)

/-- Claim C3: in the output of `sortMoversByRatingAndId`, whenever `a`
precedes `b` (that is, pairwise along the output), `b`'s rating does not
exceed `a`'s, and on equal ratings `a`'s identifier does not exceed `b`'s —
equivalently, a strictly higher rating always comes first and ties are
broken by ascending identifier. -/
theorem sortMovers_ranking_order (l : List Mover) :
    (sortMoversByRatingAndId l).Pairwise
      (fun a b => b.Rating ≤ a.Rating ∧ (a.Rating = b.Rating → a.ID ≤ b.ID)) := by
  have h := List.sorted_mergeSort moverSortLe_trans moverSortLe_total l
  unfold sortMoversByRatingAndId
  refine h.imp ?_
  intro a b hab
  rw [moverSortLe_iff] at hab
  rcases hab with hlt | ⟨heq, hid⟩
  · exact ⟨le_of_lt hlt, fun he => absurd hlt (by rw [he]; exact lt_irrefl _)⟩
  · exact ⟨heq.ge, fun _ => hid⟩

/-- Claim C9: ranking is idempotent — sorting an already sorted snapshot
returns it unchanged. -/
theorem sortMovers_idempotent (l : List Mover) :
    sortMoversByRatingAndId (sortMoversByRatingAndId l) = sortMoversByRatingAndId l := by
  unfold sortMoversByRatingAndId
  exact List.mergeSort_of_sorted
    (List.sorted_mergeSort moverSortLe_trans moverSortLe_total l)

/-- Claim C4: the listing is non-destructive — `getMovers` returns the store
exactly as it received it, and the displayed sequence is a permutation of
the store (a sorted copy, not a reordering of canonical storage). -/
theorem getMovers_nondestructive (s : List Mover) :
    (getMovers s).fst = s ∧ (sortMoversByRatingAndId s).Perm s := by
  constructor
  · unfold getMovers
    split
    · rfl
    · rfl
  · exact List.mergeSort_perm s moverSortLe

/-- Claim C5 counterexample: the store may hold a record whose rating is
outside `[0, 5]` (creation never checks the range), and a successful review
of such a record leaves the rating outside `[0, 5]`: from `rating = 10,
jobsDone = 1` the review `5` succeeds with new rating `15/2 > 5`; likewise a
negative job count (also unchecked at creation) breaks the invariant: from
`rating = 0, jobsDone = -3` the review `5` succeeds with new rating
`-5/2 < 0`. -/
theorem rating_invariant_cex :
    applyReview ⟨1, "X", 10, "t", 1⟩ 5 = .ok ⟨1, "X", 15 / 2, "t", 2⟩ ∧
    (5 : ℚ) < 15 / 2 ∧
    applyReview ⟨2, "Y", 0, "t", -3⟩ 5 = .ok ⟨2, "Y", -5 / 2, "t", -2⟩ ∧
    (-5 / 2 : ℚ) < 0 :=
  ⟨by norm_num [applyReview], by norm_num, by norm_num [applyReview], by norm_num⟩

/-- Claim C5 (amended): if before the review the record's rating is within
`[0, 5]` and its job count is non-negative, then after any successful review
the rating is again within `[0, 5]` (out-of-range input is rejected, not
clamped). -/
theorem applyReview_preserves_range (m : Mover) (v : ℚ)
    (hr0 : 0 ≤ m.Rating) (hr5 : m.Rating ≤ 5) (hn : 0 ≤ m.JobsAmount)
    (hv0 : 0 ≤ v) (hv5 : v ≤ 5) (m' : Mover)
    (hok : applyReview m v = .ok m') : 0 ≤ m'.Rating ∧ m'.Rating ≤ 5 := by
  rw [applyReview_ok m v hv0 hv5] at hok
  injection hok with h
  subst h
  have hn0 : (0 : ℚ) ≤ (m.JobsAmount : ℚ) := by exact_mod_cast hn
  have hpos : (0 : ℚ) < (m.JobsAmount : ℚ) + 1 := by linarith
  constructor
  · show 0 ≤ (m.Rating * (m.JobsAmount : ℚ) + v) / ((m.JobsAmount : ℚ) + 1)
    apply div_nonneg _ (le_of_lt hpos)
    nlinarith [mul_nonneg hr0 hn0]
  · show (m.Rating * (m.JobsAmount : ℚ) + v) / ((m.JobsAmount : ℚ) + 1) ≤ 5
    rw [div_le_iff₀ hpos]
    nlinarith [mul_le_mul_of_nonneg_right hr5 hn0]

/-- Witness for the amended C5 at a concrete in-range record and review. -/
theorem applyReview_preserves_range_witness :
    0 ≤ (Mover.mk 1 "A" 5 "p" 1).Rating ∧ (Mover.mk 1 "A" 5 "p" 1).Rating ≤ 5 :=
  applyReview_preserves_range ⟨1, "A", 4, "p", 0⟩ 5 (by norm_num) (by norm_num)
    (by norm_num) (by norm_num) (by norm_num) ⟨1, "A", 5, "p", 1⟩
    (by norm_num [applyReview])

/-- `checkMoverExists` answers exactly whether some stored record shares the
candidate's identifier or name. -/
theorem checkMoverExists_iff (s : List Mover) (m : Mover) :
    checkMoverExists s m = true ↔ ∃ e ∈ s, e.ID = m.ID ∨ e.Name = m.Name := by
  simp [checkMoverExists, List.any_eq_true]

/-- `checkMoverTelNumber` answers exactly whether some stored record shares
the candidate's telephone number. -/
theorem checkMoverTelNumber_iff (s : List Mover) (m : Mover) :
    checkMoverTelNumber s m = true ↔ ∃ e ∈ s, e.TelephoneNumber = m.TelephoneNumber := by
  simp [checkMoverTelNumber, List.any_eq_true]

/-- Claim C6: creation rejects a candidate sharing an identifier or name
with a stored record ("Mover already exists") and, failing that, one sharing
a telephone number ("Tel. number is occupied"), leaving the store unchanged
in both cases; a candidate with no conflict is appended at the end. -/
theorem addMover_conflicts (m : Mover) (s : List Mover) :
    ((∃ e ∈ s, e.ID = m.ID ∨ e.Name = m.Name) →
      addMover m s = (s, .error ⟨404, "Mover already exists"⟩)) ∧
    ((¬ ∃ e ∈ s, e.ID = m.ID ∨ e.Name = m.Name) →
      (∃ e ∈ s, e.TelephoneNumber = m.TelephoneNumber) →
      addMover m s = (s, .error ⟨404, "Tel. number is occupied"⟩)) ∧
    ((¬ ∃ e ∈ s, e.ID = m.ID ∨ e.Name = m.Name) →
      (¬ ∃ e ∈ s, e.TelephoneNumber = m.TelephoneNumber) →
      addMover m s = (s ++ [m], .ok m)) := by
  refine ⟨?_, ?_, ?_⟩
  · intro hex
    unfold addMover
    rw [if_pos ((checkMoverExists_iff s m).mpr hex)]
  · intro hnex htel
    have h1 : ¬ checkMoverExists s m = true :=
      fun hc => hnex ((checkMoverExists_iff s m).mp hc)
    unfold addMover
    rw [if_neg h1, if_pos ((checkMoverTelNumber_iff s m).mpr htel)]
  · intro hnex hntel
    have h1 : ¬ checkMoverExists s m = true :=
      fun hc => hnex ((checkMoverExists_iff s m).mp hc)
    have h2 : ¬ checkMoverTelNumber s m = true :=
      fun hc => hntel ((checkMoverTelNumber_iff s m).mp hc)
    unfold addMover
    rw [if_neg h1, if_neg h2]

/-- Witness for C6: a duplicate identifier, an occupied phone number, and a
conflict-free candidate, against a concrete one-record store. -/
theorem addMover_conflicts_witness :
    addMover ⟨1, "B", 4, "p2", 0⟩ [⟨1, "A", 4, "p1", 0⟩] =
      ([⟨1, "A", 4, "p1", 0⟩], .error ⟨404, "Mover already exists"⟩) ∧
    addMover ⟨2, "B", 4, "p1", 0⟩ [⟨1, "A", 4, "p1", 0⟩] =
      ([⟨1, "A", 4, "p1", 0⟩], .error ⟨404, "Tel. number is occupied"⟩) ∧
    addMover ⟨2, "B", 4, "p2", 0⟩ [⟨1, "A", 4, "p1", 0⟩] =
      ([⟨1, "A", 4, "p1", 0⟩, ⟨2, "B", 4, "p2", 0⟩], .ok ⟨2, "B", 4, "p2", 0⟩) :=
  ⟨(addMover_conflicts ⟨1, "B", 4, "p2", 0⟩ [⟨1, "A", 4, "p1", 0⟩]).1
     ⟨⟨1, "A", 4, "p1", 0⟩, by simp, Or.inl rfl⟩,
   (addMover_conflicts ⟨2, "B", 4, "p1", 0⟩ [⟨1, "A", 4, "p1", 0⟩]).2.1
     (by decide) ⟨⟨1, "A", 4, "p1", 0⟩, by simp, rfl⟩,
   (addMover_conflicts ⟨2, "B", 4, "p2", 0⟩ [⟨1, "A", 4, "p1", 0⟩]).2.2
     (by decide) (by decide)⟩

/-- `findMoverIndexById` fails with the Go error string when no stored
record carries the identifier. -/
theorem findMoverIndexById_not_found (id : Int) (s : List Mover)
    (h : ∀ m ∈ s, m.ID ≠ id) : findMoverIndexById id s = .error "mover not found" := by
  induction s with
  | nil => rfl
  | cons m rest ih =>
    have hm : ¬ m.ID = id := h m (List.mem_cons_self m rest)
    rw [findMoverIndexById, if_neg hm,
      ih fun x hx => h x (List.mem_cons_of_mem m hx)]
    rfl

/-- `findMoverIndexById` returns the index of the first record carrying the
identifier: the store splits as `pre ++ x :: suf` with `x` the match and no
match in `pre`, and the returned index is `pre.length`. -/
theorem findMoverIndexById_found (id : Int) (s : List Mover)
    (h : ∃ m ∈ s, m.ID = id) :
    ∃ pre x suf, x.ID = id ∧ (∀ y ∈ pre, y.ID ≠ id) ∧ s = pre ++ x :: suf ∧
      findMoverIndexById id s = .ok pre.length := by
  induction s with
  | nil => simp at h
  | cons m rest ih =>
    by_cases hm : m.ID = id
    · exact ⟨[], m, rest, hm, by simp, rfl, by simp [findMoverIndexById, hm]⟩
    · have h' : ∃ x ∈ rest, x.ID = id := by
        rcases h with ⟨x, hx, hxid⟩
        rcases List.mem_cons.mp hx with rfl | hx'
        · exact absurd hxid hm
        · exact ⟨x, hx', hxid⟩
      obtain ⟨pre, x, suf, hx, hpre, hs, hfind⟩ := ih h'
      refine ⟨m :: pre, x, suf, hx, ?_, by rw [hs]; rfl, ?_⟩
      · intro y hy
        rcases List.mem_cons.mp hy with rfl | hy'
        · exact hm
        · exact hpre y hy'
      · rw [findMoverIndexById, if_neg hm, hfind]
        rfl

/-- Removing the element sitting right after `pre` keeps `pre` and the tail
in their original relative order. -/
theorem eraseIdx_append_middle (pre : List Mover) (x : Mover) (suf : List Mover) :
    (pre ++ x :: suf).eraseIdx pre.length = pre ++ suf := by
  induction pre with
  | nil => rfl
  | cons a pre ih => simp [List.eraseIdx, ih]

/-- Claim C7: deleting a present identifier removes exactly the record at
the first matching index, preserving the relative order of every other
record; deleting an absent identifier replies 404 and leaves the store
exactly as it was. -/
theorem deleteMover_spec (id : Int) (s : List Mover) :
    ((∃ m ∈ s, m.ID = id) →
      ∃ pre x suf, x.ID = id ∧ (∀ y ∈ pre, y.ID ≠ id) ∧ s = pre ++ x :: suf ∧
        deleteMover id s = (pre ++ suf, .ok "Mover deleted successfully")) ∧
    ((¬ ∃ m ∈ s, m.ID = id) →
      deleteMover id s = (s, .error ⟨404, "Mover not found"⟩)) := by
  constructor
  · intro h
    obtain ⟨pre, x, suf, hx, hpre, hs, hfind⟩ := findMoverIndexById_found id s h
    refine ⟨pre, x, suf, hx, hpre, hs, ?_⟩
    simp only [deleteMover, hfind, deleteElement]
    rw [hs, eraseIdx_append_middle]
  · intro h
    have h' : ∀ m ∈ s, m.ID ≠ id := fun m hm hid => h ⟨m, hm, hid⟩
    simp only [deleteMover, findMoverIndexById_not_found id s h']

/-- Witness for C7: deleting the only record by its id, and deleting an
absent id, on a concrete one-record store. -/
theorem deleteMover_spec_witness :
    (∃ pre x suf, Mover.ID x = 1 ∧ (∀ y ∈ pre, Mover.ID y ≠ 1) ∧
      ([(⟨1, "A", 4, "p", 0⟩ : Mover)] = pre ++ x :: suf) ∧
      deleteMover 1 [⟨1, "A", 4, "p", 0⟩] =
        (pre ++ suf, .ok "Mover deleted successfully")) ∧
    deleteMover 2 [⟨1, "A", 4, "p", 0⟩] =
      ([⟨1, "A", 4, "p", 0⟩], .error ⟨404, "Mover not found"⟩) :=
  ⟨(deleteMover_spec 1 [⟨1, "A", 4, "p", 0⟩]).1 ⟨⟨1, "A", 4, "p", 0⟩, by simp, rfl⟩,
   (deleteMover_spec 2 [⟨1, "A", 4, "p", 0⟩]).2 (by decide)⟩

/-- Claim C8: listing an empty store is a client error, not an empty
success: `getMovers` on the empty collection replies 404 "movers list is
empty" and leaves the store empty. -/
theorem getMovers_empty_error :
    getMovers ([] : List Mover) = ([], .error ⟨404, "movers list is empty"⟩) := rfl

/-- Claim C10: the review's division is unguarded — for a non-negative job
count the divisor `jobsDone + 1` is positive, but neither the review nor
creation checks the job count: creation appends any record (here into an
empty store), and on a record with `jobsDone = -1` the review still succeeds
while its divisor is zero. -/
theorem review_division_unguarded :
    (∀ m : Mover, 0 ≤ m.JobsAmount → 0 < (m.JobsAmount : ℚ) + 1) ∧
    (∀ (m : Mover) (v : ℚ), 0 ≤ v → v ≤ 5 → m.JobsAmount = -1 →
      (m.JobsAmount : ℚ) + 1 = 0 ∧
      applyReview m v = .ok { m with
        Rating := (m.Rating * (m.JobsAmount : ℚ) + v) / ((m.JobsAmount : ℚ) + 1),
        JobsAmount := m.JobsAmount + 1 }) ∧
    (∀ m : Mover, addMover m [] = ([m], .ok m)) := by
  refine ⟨?_, ?_, ?_⟩
  · intro m hm
    have h0 : (0 : ℚ) ≤ (m.JobsAmount : ℚ) := by exact_mod_cast hm
    linarith
  · intro m v h0 h5 hneg
    exact ⟨by rw [hneg]; norm_num, applyReview_ok m v h0 h5⟩
  · intro m
    rfl

/-- Witness for C10 at a record with job count `-1` and review value `5`. -/
theorem review_division_unguarded_witness :
    (((⟨1, "N", 4, "t", -1⟩ : Mover).JobsAmount : ℚ) + 1 = 0 ∧
      applyReview ⟨1, "N", 4, "t", -1⟩ 5 =
        .ok ⟨1, "N", (4 * ((-1 : Int) : ℚ) + 5) / (((-1 : Int) : ℚ) + 1), "t", -1 + 1⟩) :=
  review_division_unguarded.2.1 ⟨1, "N", 4, "t", -1⟩ 5 (by norm_num) (by norm_num) rfl

end MoversAPI
